import Mathlib

/-!
Verification of the snake-arena grid engine and room lifecycle.

The definitions below are a shallow embedding of the Rust sources
(src/game.rs and src/room.rs).  Hash maps are modelled as association
lists with insert-overwrite semantics; the random sources consumed by
doodah placement and heading sampling are modelled as explicit natural
number inputs; Rust panics (index out of bounds, the cleanup invariant
violation) are modelled by returning none.
-/

namespace SnakeArena

/-- The direction a snake is facing (game.rs, Direction). -/
inductive Direction
  | North
  | East
  | South
  | West
deriving DecidableEq, Repr

/-- The size of a tile grid (game.rs, Dimensions). -/
structure Dimensions where
  width : Nat
  height : Nat
deriving DecidableEq, Repr

/-- A position in the tile grid (game.rs, Position). -/
abbrev Position := Nat × Nat

/-- An ID for a snake (game.rs, SnakeID). -/
abbrev SnakeID := Nat

/-- What a tile is filled with (game.rs, Tile). -/
inductive Tile
  | SnakeBody (id : SnakeID) (index : Nat)
  | SnakeHead (id : SnakeID) (dir : Direction)
  | Doodah
  | Wall
  | Blank
deriving DecidableEq, Repr

/-- A snake: last heading, head position, and the tail positions, where index 0
is the end of the tail and higher indices are closer to the head
(game.rs, Snake; body is a VecDeque, front = index 0). -/
structure Snake where
  dir : Direction
  head : Position
  body : List Position
deriving DecidableEq, Repr

/-- Number of doodahs eaten: the body length (game.rs, Snake::score). -/
def Snake.score (s : Snake) : Nat := s.body.length

/-- The new head position if the snake were to move
(game.rs, Snake::next_head_pos). -/
def Snake.next_head_pos (s : Snake) (d : Dimensions) : Position :=
  match s.dir with
  | Direction.North => (s.head.1, (s.head.2 + 1) % d.height)
  | Direction.South => (s.head.1, (s.head.2 + d.height - 1) % d.height)
  | Direction.East => ((s.head.1 + 1) % d.width, s.head.2)
  | Direction.West => ((s.head.1 + d.width - 1) % d.width, s.head.2)

/-- Move the snake one step: push the old head onto the back of the body,
move the head, pop the front of the body.  Returns the new snake and the
freed spot (game.rs, Snake::step). -/
def Snake.step (s : Snake) (d : Dimensions) : Snake × Position :=
  let pushed := s.body ++ [s.head]
  (⟨s.dir, s.next_head_pos d, pushed.tail⟩, pushed.headD s.head)

/-- Grow the snake one step: like step, but the last segment is kept
(game.rs, Snake::grow). -/
def Snake.grow (s : Snake) (d : Dimensions) : Snake :=
  ⟨s.dir, s.next_head_pos d, s.body ++ [s.head]⟩

/-- Test if we have collided with another snake
(game.rs, Snake::has_collided). -/
def Snake.has_collided (s other : Snake) : Bool :=
  decide (s.head = other.head) || other.body.any (fun part => decide (part = s.head))

/-- Test if we have collided with ourselves
(game.rs, Snake::has_self_collided). -/
def Snake.has_self_collided (s : Snake) : Bool :=
  s.body.any (fun part => decide (part = s.head))

/-- The tile grid (game.rs, Map).  The snake and score hash maps are modelled
as association lists with unique keys. -/
structure Map where
  dims : Dimensions
  tiles : List Tile
  snakes : List (SnakeID × Snake)
  scores : List (SnakeID × Nat)
deriving DecidableEq, Repr

/-- Convert from a position to a tile index (game.rs, Map::to_index). -/
def posIndex (d : Dimensions) (p : Position) : Nat := p.1 + p.2 * d.width

/-- Association-list lookup, modelling HashMap::get. -/
def lookupKey {α : Type} (k : Nat) : List (Nat × α) → Option α
  | [] => none
  | (k', v) :: rest => if k' = k then some v else lookupKey k rest

/-- Association-list key removal, modelling HashMap::remove. -/
def eraseKey {α : Type} (k : Nat) (l : List (Nat × α)) : List (Nat × α) :=
  l.filter (fun p => decide (p.1 ≠ k))

/-- Association-list insert-overwrite, modelling HashMap::insert. -/
def insertKey {α : Type} (k : Nat) (v : α) (l : List (Nat × α)) : List (Nat × α) :=
  (k, v) :: eraseKey k l

/-- Test if a snake is still alive (game.rs, Map::is_alive). -/
def Map.is_alive (m : Map) (id : SnakeID) : Bool := (lookupKey id m.snakes).isSome

/-- One tile of the board cleanup: snake parts revert to blank. -/
def cleanTile : Tile → Tile
  | Tile.SnakeBody _ _ => Tile.Blank
  | Tile.SnakeHead _ _ => Tile.Blank
  | t => t

/-- Remove all snake parts from the board (game.rs, Map::cleanup_board). -/
def Map.cleanup_board (m : Map) : Map := { m with tiles := m.tiles.map cleanTile }

/-- First phase of Map::move_snakes: the retain loop moving every snake one
step.  A snake whose target is a doodah grows and records the doodah position
(a later snake overwrites an earlier record); a snake whose target is blank
steps; a snake whose target is a wall is dropped; any other target tile, or an
out-of-range target index, is a panic, modelled as none. -/
def resolveMoves (d : Dimensions) (ts : List Tile) :
    List (SnakeID × Snake) → Option (List (SnakeID × Snake) × Option Position)
  | [] => some ([], none)
  | (id, s) :: rest =>
    match ts.get? (posIndex d (s.next_head_pos d)) with
    | some Tile.Doodah =>
      match resolveMoves d ts rest with
      | some (kept, gd) => some ((id, s.grow d) :: kept, some (gd.getD (s.next_head_pos d)))
      | none => none
    | some Tile.Blank =>
      match resolveMoves d ts rest with
      | some (kept, gd) => some ((id, (s.step d).1) :: kept, gd)
      | none => none
    | some Tile.Wall => resolveMoves d ts rest
    | _ => none

/-- Second phase of Map::move_snakes: drop every snake that has collided with
itself or with any other moved snake, judged against the full post-move list. -/
def collisionPass (moved : List (SnakeID × Snake)) : List (SnakeID × Snake) :=
  moved.filter (fun p =>
    !(moved.any (fun q => if p.1 = q.1 then p.2.has_self_collided else p.2.has_collided q.2)))

/-- Move the snakes one step (game.rs, Map::move_snakes). -/
def Map.move_snakes (m : Map) : Option (Map × Option Position) :=
  match resolveMoves m.dims m.tiles m.snakes with
  | none => none
  | some (moved, gd) => some ({ m with snakes := collisionPass moved }, gd)

/-- Write one tile, panicking (none) when the index is out of range, as Rust
slice indexing does. -/
def setTile (ts : List Tile) (i : Nat) (t : Tile) : Option (List Tile) :=
  if i < ts.length then some (ts.set i t) else none

/-- Paint the body segments of one snake onto the board, starting at the
given segment index. -/
def placeBody (id : SnakeID) (d : Dimensions) :
    List Tile → Nat → List Position → Option (List Tile)
  | ts, _, [] => some ts
  | ts, n, p :: ps =>
    match setTile ts (posIndex d p) (Tile.SnakeBody id n) with
    | none => none
    | some ts' => placeBody id d ts' (n + 1) ps

/-- Paint one snake (head, then body segments) onto the board. -/
def placeSnake (d : Dimensions) (ts : List Tile) (id : SnakeID) (s : Snake) :
    Option (List Tile) :=
  match setTile ts (posIndex d s.head) (Tile.SnakeHead id s.dir) with
  | none => none
  | some ts' => placeBody id d ts' 0 s.body

/-- Paint every snake onto the board, in table order. -/
def placeAll (d : Dimensions) : List Tile → List (SnakeID × Snake) → Option (List Tile)
  | ts, [] => some ts
  | ts, (id, s) :: rest =>
    match placeSnake d ts id s with
    | none => none
    | some ts' => placeAll d ts' rest

/-- Place all snake parts onto the board (game.rs, Map::place_snakes). -/
def Map.place_snakes (m : Map) : Option Map :=
  match placeAll m.dims m.tiles m.snakes with
  | none => none
  | some ts => some { m with tiles := ts }

/-- Update the scores for living snakes (game.rs, Map::update_scores). -/
def Map.update_scores (m : Map) : Map :=
  { m with scores := m.snakes.foldl (fun sc p => insertKey p.1 p.2.score sc) m.scores }

/-- The indices of the blank tiles, in increasing order. -/
def blankIndices (ts : List Tile) : List Nat :=
  (List.range ts.length).filter (fun i => decide (ts.get? i = some Tile.Blank))

/-- Place a doodah on a blank tile, if one exists; the random choice among the
blank tiles is modelled by the explicit input r (game.rs, Map::place_doodah). -/
def placeDoodahTiles (ts : List Tile) (r : Nat) : List Tile :=
  let bs := blankIndices ts
  if bs.isEmpty then ts else ts.set (bs.getD (r % bs.length) 0) Tile.Doodah

/-- Place a doodah randomly on a blank tile, if one exists
(game.rs, Map::place_doodah). -/
def Map.place_doodah (m : Map) (r : Nat) : Map :=
  { m with tiles := placeDoodahTiles m.tiles r }

/-- Get the new map after a time step (game.rs, Map::step).  The random input
r drives the doodah respawn; none models a panic. -/
def Map.step (m : Map) (r : Nat) : Option (Except (List (SnakeID × Nat)) Map) :=
  match (m.cleanup_board).move_snakes with
  | none => none
  | some (m2, gd) =>
    if m2.snakes.isEmpty then some (Except.error m2.scores)
    else
      match m2.place_snakes with
      | none => none
      | some m3 =>
        match gd with
        | none => some (Except.ok m3.update_scores)
        | some coord =>
          match (m3.update_scores).tiles.get? (posIndex m.dims coord) with
          | none => none
          | some t =>
            if t = Tile.Doodah then
              some (Except.ok (Map.place_doodah
                { m3.update_scores with
                  tiles := (m3.update_scores).tiles.set (posIndex m.dims coord) Tile.Blank } r))
            else
              some (Except.ok ((m3.update_scores).place_doodah r))

/-- The score table carried by a step result, successful or not. -/
def resultScores (res : Except (List (SnakeID × Nat)) Map) : List (SnakeID × Nat) :=
  match res with
  | Except.error sc => sc
  | Except.ok m' => m'.scores

/-- There is at most one doodah tile on the board. -/
def AtMostOneDoodah (ts : List Tile) : Prop :=
  ∀ i, i < ts.length → ∀ j, j < ts.length →
    ts.get? i = some Tile.Doodah → ts.get? j = some Tile.Doodah → i = j

instance (ts : List Tile) : Decidable (AtMostOneDoodah ts) := by
  unfold AtMostOneDoodah; infer_instance

/-- The direction array used by the heading sampler (game.rs, the
Distribution of Direction for Standard). -/
def DIRECTIONS : List Direction :=
  [Direction.North, Direction.West, Direction.South, Direction.East]

/-- rand 0.6 gen_range(lo, hi): a value in the half-open range lo..hi,
driven by the explicit random input r. -/
def gen_range (lo hi r : Nat) : Nat := lo + r % (hi - lo)

/-- The heading sampler: DIRECTIONS indexed by gen_range(0, 3)
(game.rs, the sample method of the Distribution of Direction). -/
def sampleDirection (r : Nat) : Direction :=
  DIRECTIONS.getD (gen_range 0 3 r) Direction.North

/-! ## Room lifecycle model (room.rs)

Socket addresses are modelled as naturals; the reader/writer halves of a
connection are modelled as one opaque handle number.  The oneshot breaker
channel of a playing room is modelled by a boolean saying whether sending
the reset signal succeeds. -/

/-- A client address (room.rs, SocketAddr). -/
abbrev SocketAddr := Nat

/-- A named socket: the display name together with an opaque handle standing
for the reader/writer pair (room.rs, NamedSocket). -/
structure NamedSocket where
  name : String
  handle : Nat
deriving DecidableEq, Repr

/-- People that are waiting for a room (room.rs, WaitingList). -/
structure WaitingList where
  waiting : List (SocketAddr × NamedSocket)
deriving DecidableEq, Repr

/-- The lifecycle state of a room (room.rs, RoomState). -/
inductive RoomState
  | Waiting
  | Playing (map : Map) (addrs : List (SocketAddr × (String × SnakeID))) (breakerOk : Bool)
  | Finished (scores : List (SocketAddr × (String × Nat)))
deriving DecidableEq, Repr

/-- The room that snakes play in (room.rs, Room).  The tick duration is
modelled in milliseconds. -/
structure Room where
  state : RoomState
  players : List (SocketAddr × NamedSocket)
  history : List Map
  timestep : Option Nat
  width : Nat
  height : Nat
  tiles : List Tile
  name : String
  description : String
deriving DecidableEq, Repr

/-- Moves the waiter to the given room (room.rs, WaitingList::subscribe).
Returns the operation result together with the updated waiting list and room. -/
def WaitingList.subscribe (wl : WaitingList) (addr : SocketAddr) (room : Room) :
    Except String Unit × WaitingList × Room :=
  match lookupKey addr wl.waiting with
  | some waiter =>
    match room.state with
    | RoomState.Waiting =>
      (Except.ok (), ⟨eraseKey addr wl.waiting⟩,
        { room with players := insertKey addr waiter room.players })
    | _ =>
      (Except.error "provided room is already in progress",
        ⟨insertKey addr waiter (eraseKey addr wl.waiting)⟩, room)
  | none => (Except.error "address not in wait queue", wl, room)

/-- Whether a room state is the Playing state. -/
def RoomState.isPlaying : RoomState → Bool
  | RoomState.Playing _ _ _ => true
  | _ => false

/-- Reset the room to its initial state (room.rs, Room::reset): clear the
players, go back to Waiting, and if the room was playing fire the breaker. -/
def Room.reset (room : Room) : Except String Unit × Room :=
  let cleared : Room := { room with players := [], state := RoomState.Waiting }
  match room.state with
  | RoomState.Playing _ _ breakerOk =>
    (if breakerOk then Except.ok () else Except.error "failed to send reset signal", cleared)
  | _ => (Except.ok (), cleared)

/-! ## Concrete scenarios used by counterexamples and witnesses -/

/-- Snake 0 of the C1 scenario: about to eat the doodah at (1,0). -/
def c1sA : Snake := ⟨Direction.East, (0, 0), []⟩

/-- Snake 1 of the C1 scenario: also about to eat the doodah at (1,0). -/
def c1sB : Snake := ⟨Direction.West, (2, 0), []⟩

/-- C1 scenario: a 4 by 1 grid where both snakes eat the doodah and then
collide head-on, so both die on the same tick they grew. -/
def c1map : Map :=
  { dims := ⟨4, 1⟩
  , tiles := [Tile.SnakeHead 0 Direction.East, Tile.Doodah,
              Tile.SnakeHead 1 Direction.West, Tile.Blank]
  , snakes := [(0, c1sA), (1, c1sB)]
  , scores := [(0, 0), (1, 0)] }

/-- The post-move snake table of the C1 scenario: both snakes grew onto (1,0). -/
def c1moved : List (SnakeID × Snake) :=
  [(0, ⟨Direction.East, (1, 0), [(0, 0)]⟩), (1, ⟨Direction.West, (1, 0), [(2, 0)]⟩)]

/-- The C2 counterexample snake: length 2, heading onto its own tail tip. -/
def c2s : Snake := ⟨Direction.East, (0, 0), [(1, 0)]⟩

/-- C2 counterexample scenario: a 2 by 1 grid where the only snake's next-head
cell is its own tail tip. -/
def c2map : Map :=
  { dims := ⟨2, 1⟩
  , tiles := [Tile.SnakeHead 0 Direction.East, Tile.SnakeBody 0 0]
  , snakes := [(0, c2s)]
  , scores := [(0, 1)] }

/-- The successor of the C2 counterexample scenario: the snake survived. -/
def c2res : Map :=
  { dims := ⟨2, 1⟩
  , tiles := [Tile.SnakeBody 0 0, Tile.SnakeHead 0 Direction.East]
  , snakes := [(0, ⟨Direction.East, (1, 0), [(0, 0)]⟩)]
  , scores := [(0, 1)] }

/-- The C2 witness snake: length 4, heading onto a mid-body cell. -/
def c2wX : Snake := ⟨Direction.North, (0, 0), [(1, 0), (1, 1), (0, 1)]⟩

/-- The second C2 witness snake, which survives the tick. -/
def c2wY : Snake := ⟨Direction.West, (3, 0), []⟩

/-- C2 witness scenario: a 4 by 2 grid where snake 0 runs into its own
mid-body cell (0,1) and dies while snake 1 survives. -/
def c2wmap : Map :=
  { dims := ⟨4, 2⟩
  , tiles := [Tile.SnakeHead 0 Direction.North, Tile.SnakeBody 0 0, Tile.Blank,
              Tile.SnakeHead 1 Direction.West, Tile.SnakeBody 0 2, Tile.SnakeBody 0 1,
              Tile.Blank, Tile.Blank]
  , snakes := [(0, c2wX), (1, c2wY)]
  , scores := [(0, 3), (1, 0)] }

/-- The successor of the C2 witness scenario: only snake 1 remains. -/
def c2wres : Map :=
  { dims := ⟨4, 2⟩
  , tiles := [Tile.Blank, Tile.Blank, Tile.SnakeHead 1 Direction.West, Tile.Blank,
              Tile.Blank, Tile.Blank, Tile.Blank, Tile.Blank]
  , snakes := [(1, ⟨Direction.West, (2, 0), []⟩)]
  , scores := [(1, 0), (0, 3)] }

/-- C3 witness snake A, moving East onto (1,0). -/
def c3A : Snake := ⟨Direction.East, (0, 0), []⟩

/-- C3 witness snake B, moving West onto (1,0). -/
def c3B : Snake := ⟨Direction.West, (2, 0), []⟩

/-- C3 witness snake C, moving East onto the free cell (4,0). -/
def c3C : Snake := ⟨Direction.East, (3, 0), []⟩

/-- C3 witness scenario: a 5 by 1 grid where snakes 0 and 1 enter the same
cell head-on and snake 2 survives. -/
def c3map : Map :=
  { dims := ⟨5, 1⟩
  , tiles := [Tile.SnakeHead 0 Direction.East, Tile.Blank, Tile.SnakeHead 1 Direction.West,
              Tile.SnakeHead 2 Direction.East, Tile.Blank]
  , snakes := [(0, c3A), (1, c3B), (2, c3C)]
  , scores := [(0, 0), (1, 0), (2, 0)] }

/-- The successor of the C3 witness scenario: only snake 2 remains. -/
def c3res : Map :=
  { dims := ⟨5, 1⟩
  , tiles := [Tile.Blank, Tile.Blank, Tile.Blank, Tile.Blank, Tile.SnakeHead 2 Direction.East]
  , snakes := [(2, ⟨Direction.East, (4, 0), []⟩)]
  , scores := [(2, 0), (0, 0), (1, 0)] }

/-- The C4 witness snake, walking into a wall. -/
def c4s : Snake := ⟨Direction.East, (0, 0), []⟩

/-- C4 witness scenario: a 2 by 1 grid whose single snake walks into a wall. -/
def c4map : Map :=
  { dims := ⟨2, 1⟩
  , tiles := [Tile.SnakeHead 0 Direction.East, Tile.Wall]
  , snakes := [(0, c4s)]
  , scores := [(0, 0)] }

/-- The post-move map of the C4 witness scenario: no snakes remain. -/
def c4m2 : Map :=
  { dims := ⟨2, 1⟩
  , tiles := [Tile.Blank, Tile.Wall]
  , snakes := []
  , scores := [(0, 0)] }

/-- The C5 witness snake, about to eat the doodah at (1,0). -/
def c5s : Snake := ⟨Direction.East, (0, 0), []⟩

/-- C5 witness scenario: a 3 by 1 grid with one doodah about to be eaten. -/
def c5map : Map :=
  { dims := ⟨3, 1⟩
  , tiles := [Tile.SnakeHead 0 Direction.East, Tile.Doodah, Tile.Blank]
  , snakes := [(0, c5s)]
  , scores := [(0, 0)] }

/-- The successor of the C5 witness scenario: the doodah respawned at (2,0). -/
def c5res : Map :=
  { dims := ⟨3, 1⟩
  , tiles := [Tile.SnakeBody 0 0, Tile.SnakeHead 0 Direction.East, Tile.Doodah]
  , snakes := [(0, ⟨Direction.East, (1, 0), [(0, 0)]⟩)]
  , scores := [(0, 1)] }

/-- C7 witness scenario: a 2 by 1 grid with no doodah anywhere. -/
def c7map : Map :=
  { dims := ⟨2, 1⟩
  , tiles := [Tile.SnakeHead 0 Direction.East, Tile.Blank]
  , snakes := [(0, ⟨Direction.East, (0, 0), []⟩)]
  , scores := [(0, 0)] }

/-- C8 witness registry holding one waiter at address 7. -/
def c8wl : WaitingList := ⟨[(7, ⟨"alice", 1⟩)]⟩

/-- C8 witness room, in the Waiting state. -/
def c8room : Room :=
  { state := RoomState.Waiting
  , players := []
  , history := []
  , timestep := none
  , width := 2, height := 2
  , tiles := [Tile.Blank, Tile.Blank, Tile.Blank, Tile.Blank]
  , name := "lobby", description := "open" }

/-- C9 scenario: a room whose game has finished naturally, with a frozen
score table. -/
def c9room : Room :=
  { state := RoomState.Finished [(0, ("alice", 3))]
  , players := []
  , history := []
  , timestep := none
  , width := 1, height := 1, tiles := [Tile.Blank]
  , name := "r", description := "d" }

/-! ## C6: toroidal wraparound -/

/-- C6: movement is toroidal.  For every width and height at least 1, a snake
at the maximum x-coordinate heading East gets next head x = 0 on the same row;
a snake at x = 0 heading West re-enters at the maximum x; a snake at the
maximum y heading North re-enters at y = 0; a snake at y = 0 heading South
re-enters at the maximum y. -/
theorem c6_toroidal_wraparound (w h x y : Nat) (b : List Position)
    (hw : 1 ≤ w) (hh : 1 ≤ h) :
    Snake.next_head_pos ⟨Direction.East, (w - 1, y), b⟩ ⟨w, h⟩ = (0, y) ∧
    Snake.next_head_pos ⟨Direction.West, (0, y), b⟩ ⟨w, h⟩ = (w - 1, y) ∧
    Snake.next_head_pos ⟨Direction.North, (x, h - 1), b⟩ ⟨w, h⟩ = (x, 0) ∧
    Snake.next_head_pos ⟨Direction.South, (x, 0), b⟩ ⟨w, h⟩ = (x, h - 1) := by
  refine ⟨?_, ?_, ?_, ?_⟩ <;> simp only [Snake.next_head_pos]
  · have h1 : w - 1 + 1 = w := by omega
    rw [h1, Nat.mod_self]
  · have h1 : 0 + w - 1 = w - 1 := by omega
    rw [h1, Nat.mod_eq_of_lt (by omega)]
  · have h1 : h - 1 + 1 = h := by omega
    rw [h1, Nat.mod_self]
  · have h1 : 0 + h - 1 = h - 1 := by omega
    rw [h1, Nat.mod_eq_of_lt (by omega)]

/-- Witness for C6 at width 3, height 4. -/
theorem c6_toroidal_wraparound_witness :
    (1 ≤ 3 ∧ 1 ≤ 4) ∧
    (Snake.next_head_pos ⟨Direction.East, (2, 2), []⟩ ⟨3, 4⟩ = (0, 2) ∧
     Snake.next_head_pos ⟨Direction.West, (0, 2), []⟩ ⟨3, 4⟩ = (2, 2) ∧
     Snake.next_head_pos ⟨Direction.North, (1, 3), []⟩ ⟨3, 4⟩ = (1, 0) ∧
     Snake.next_head_pos ⟨Direction.South, (1, 0), []⟩ ⟨3, 4⟩ = (1, 3)) :=
  ⟨⟨by decide, by decide⟩, c6_toroidal_wraparound 3 4 1 2 [] (by decide) (by decide)⟩

/-! ## C10: the heading sampler never returns East -/

/-- C10: the Direction sampler used to seed each new snake's initial heading
indexes the four-element direction array with gen_range(0, 3), so it returns
only North, West, or South and never East. -/
theorem c10_sampler_never_east (r : Nat) :
    (sampleDirection r = Direction.North ∨ sampleDirection r = Direction.West ∨
      sampleDirection r = Direction.South) ∧ sampleDirection r ≠ Direction.East := by
  have h : r % 3 = 0 ∨ r % 3 = 1 ∨ r % 3 = 2 := by omega
  rcases h with h | h | h <;> simp [sampleDirection, gen_range, DIRECTIONS, h]

/-- Witness for C10 at the random input 7. -/
theorem c10_sampler_never_east_witness :
    (sampleDirection 7 = Direction.North ∨ sampleDirection 7 = Direction.West ∨
      sampleDirection 7 = Direction.South) ∧ sampleDirection 7 ≠ Direction.East :=
  c10_sampler_never_east 7

/-! ## Helper lemmas: association lists -/

theorem lookupKey_eq_none_iff {α : Type} (k : Nat) (l : List (Nat × α)) :
    lookupKey k l = none ↔ ∀ p ∈ l, p.1 ≠ k := by
  induction l with
  | nil => simp [lookupKey]
  | cons hd tl ih =>
    obtain ⟨k', v⟩ := hd
    by_cases hk : k' = k
    · subst hk
      simp [lookupKey]
    · simp [lookupKey, hk, ih]

theorem lookupKey_eraseKey_self {α : Type} (k : Nat) (l : List (Nat × α)) :
    lookupKey k (eraseKey k l) = none := by
  rw [lookupKey_eq_none_iff]
  intro p hp
  exact of_decide_eq_true (List.mem_filter.mp hp).2

theorem lookupKey_eraseKey_ne {α : Type} {a k : Nat} (h : a ≠ k) (l : List (Nat × α)) :
    lookupKey a (eraseKey k l) = lookupKey a l := by
  induction l with
  | nil => rfl
  | cons hd tl ih =>
    obtain ⟨k', v⟩ := hd
    by_cases hk : k' = k
    · have h1 : eraseKey k ((k', v) :: tl) = eraseKey k tl := by
        simp [eraseKey, List.filter_cons, hk]
      rw [h1, ih, lookupKey, if_neg (fun he => h (he.symm.trans hk))]
    · have h1 : eraseKey k ((k', v) :: tl) = (k', v) :: eraseKey k tl := by
        simp [eraseKey, List.filter_cons, hk]
      rw [h1, lookupKey, lookupKey]
      by_cases ha : k' = a
      · rw [if_pos ha, if_pos ha]
      · rw [if_neg ha, if_neg ha, ih]

theorem lookupKey_insertKey_self {α : Type} (k : Nat) (v : α) (l : List (Nat × α)) :
    lookupKey k (insertKey k v l) = some v := by
  simp [insertKey, lookupKey]

theorem lookupKey_insertKey_ne {α : Type} {a k : Nat} (h : a ≠ k) (v : α)
    (l : List (Nat × α)) : lookupKey a (insertKey k v l) = lookupKey a l := by
  have hka : ¬ k = a := fun he => h he.symm
  simp only [insertKey, lookupKey, if_neg hka]
  exact lookupKey_eraseKey_ne h l

theorem mem_unique_of_nodup_keys {α : Type} {l : List (Nat × α)} {k : Nat} {a b : α}
    (hnd : (l.map Prod.fst).Nodup) (ha : (k, a) ∈ l) (hb : (k, b) ∈ l) : a = b := by
  induction l with
  | nil => cases ha
  | cons hd tl ih =>
    obtain ⟨k0, v0⟩ := hd
    rw [List.map_cons, List.nodup_cons] at hnd
    rcases List.mem_cons.mp ha with ha1 | ha1 <;> rcases List.mem_cons.mp hb with hb1 | hb1
    · injection ha1.trans hb1.symm
    · injection ha1 with hk _
      exact absurd (hk ▸ List.mem_map.mpr ⟨(k, b), hb1, rfl⟩) hnd.1
    · injection hb1 with hk _
      exact absurd (hk ▸ List.mem_map.mpr ⟨(k, a), ha1, rfl⟩) hnd.1
    · exact ih hnd.2 ha1 hb1

theorem lookupKey_foldl_insertKey {l : List (SnakeID × Snake)} {id : SnakeID}
    (init : List (SnakeID × Nat)) (h : ∀ p ∈ l, p.1 ≠ id) :
    lookupKey id (l.foldl (fun sc p => insertKey p.1 p.2.score sc) init)
      = lookupKey id init := by
  induction l generalizing init with
  | nil => rfl
  | cons hd tl ih =>
    rw [List.foldl_cons, ih _ (fun p hp => h p (List.mem_cons_of_mem _ hp))]
    exact lookupKey_insertKey_ne
      (fun he => h hd (List.mem_cons_self _ _) he.symm) _ _

/-! ## Helper lemmas: the move-resolution phase -/

theorem resolveMoves_keys_sublist {d : Dimensions} {ts : List Tile} :
    ∀ {l kept : List (SnakeID × Snake)} {gd : Option Position},
      resolveMoves d ts l = some (kept, gd) →
      List.Sublist (kept.map Prod.fst) (l.map Prod.fst) := by
  intro l
  induction l with
  | nil =>
    intro kept gd h
    simp only [resolveMoves, Option.some.injEq, Prod.mk.injEq] at h
    rw [← h.1]
  | cons hd tl ih =>
    intro kept gd h
    obtain ⟨id, s⟩ := hd
    simp only [resolveMoves] at h
    split at h
    · split at h
      · next kept' gd' heq2 =>
          simp only [Option.some.injEq, Prod.mk.injEq] at h
          rw [← h.1, List.map_cons, List.map_cons]
          exact (ih heq2).cons₂ _
      · cases h
    · split at h
      · next kept' gd' heq2 =>
          simp only [Option.some.injEq, Prod.mk.injEq] at h
          rw [← h.1, List.map_cons, List.map_cons]
          exact (ih heq2).cons₂ _
      · cases h
    · rw [List.map_cons]
      exact (ih h).cons _
    · cases h

theorem resolveMoves_mem_blank {d : Dimensions} {ts : List Tile} :
    ∀ {l kept : List (SnakeID × Snake)} {gd : Option Position} {id : SnakeID} {s : Snake},
      resolveMoves d ts l = some (kept, gd) →
      (id, s) ∈ l →
      ts.get? (posIndex d (s.next_head_pos d)) = some Tile.Blank →
      (id, (s.step d).1) ∈ kept := by
  intro l
  induction l with
  | nil => intro _ _ _ _ _ hm _; cases hm
  | cons hd tl ih =>
    intro kept gd id s h hm ht
    obtain ⟨k, s0⟩ := hd
    rcases List.mem_cons.mp hm with hm1 | hm1
    · injection hm1 with h1 h2
      subst h1
      subst h2
      simp only [resolveMoves, ht] at h
      split at h
      · next kept' gd' heq2 =>
          simp only [Option.some.injEq, Prod.mk.injEq] at h
          rw [← h.1]
          exact List.mem_cons_self _ _
      · cases h
    · simp only [resolveMoves] at h
      split at h
      · split at h
        · next kept' gd' heq2 =>
            simp only [Option.some.injEq, Prod.mk.injEq] at h
            rw [← h.1]
            exact List.mem_cons_of_mem _ (ih heq2 hm1 ht)
        · cases h
      · split at h
        · next kept' gd' heq2 =>
            simp only [Option.some.injEq, Prod.mk.injEq] at h
            rw [← h.1]
            exact List.mem_cons_of_mem _ (ih heq2 hm1 ht)
        · cases h
      · exact ih h hm1 ht
      · cases h

theorem resolveMoves_mem_doodah {d : Dimensions} {ts : List Tile} :
    ∀ {l kept : List (SnakeID × Snake)} {gd : Option Position} {id : SnakeID} {s : Snake},
      resolveMoves d ts l = some (kept, gd) →
      (id, s) ∈ l →
      ts.get? (posIndex d (s.next_head_pos d)) = some Tile.Doodah →
      (id, s.grow d) ∈ kept := by
  intro l
  induction l with
  | nil => intro _ _ _ _ _ hm _; cases hm
  | cons hd tl ih =>
    intro kept gd id s h hm ht
    obtain ⟨k, s0⟩ := hd
    rcases List.mem_cons.mp hm with hm1 | hm1
    · injection hm1 with h1 h2
      subst h1
      subst h2
      simp only [resolveMoves, ht] at h
      split at h
      · next kept' gd' heq2 =>
          simp only [Option.some.injEq, Prod.mk.injEq] at h
          rw [← h.1]
          exact List.mem_cons_self _ _
      · cases h
    · simp only [resolveMoves] at h
      split at h
      · split at h
        · next kept' gd' heq2 =>
            simp only [Option.some.injEq, Prod.mk.injEq] at h
            rw [← h.1]
            exact List.mem_cons_of_mem _ (ih heq2 hm1 ht)
        · cases h
      · split at h
        · next kept' gd' heq2 =>
            simp only [Option.some.injEq, Prod.mk.injEq] at h
            rw [← h.1]
            exact List.mem_cons_of_mem _ (ih heq2 hm1 ht)
        · cases h
      · exact ih h hm1 ht
      · cases h

theorem resolveMoves_gd_doodah {d : Dimensions} {ts : List Tile} :
    ∀ {l kept : List (SnakeID × Snake)} {coord : Position},
      resolveMoves d ts l = some (kept, some coord) →
      ts.get? (posIndex d coord) = some Tile.Doodah := by
  intro l
  induction l with
  | nil =>
    intro kept coord h
    simp only [resolveMoves, Option.some.injEq, Prod.mk.injEq] at h
    cases h.2
  | cons hd tl ih =>
    intro kept coord h
    obtain ⟨k, s0⟩ := hd
    simp only [resolveMoves] at h
    split at h
    · next heq =>
        split at h
        · next kept' gd' heq2 =>
            simp only [Option.some.injEq, Prod.mk.injEq] at h
            cases gd' with
            | none =>
              have : coord = s0.next_head_pos d := by
                have h2 := h.2
                simp [Option.getD] at h2
                exact h2.symm
              rw [this]
              exact heq
            | some c =>
              have : coord = c := by
                have h2 := h.2
                simp [Option.getD] at h2
                exact h2.symm
              rw [this]
              exact ih heq2
        · cases h
    · split at h
      · next kept' gd' heq2 =>
          simp only [Option.some.injEq, Prod.mk.injEq] at h
          have h2 := h.2
          rw [h2] at heq2
          exact ih heq2
      · cases h
    · exact ih h
    · cases h

theorem resolveMoves_gd_none {d : Dimensions} {ts : List Tile} :
    ∀ {l kept : List (SnakeID × Snake)} {gd : Option Position},
      (∀ p ∈ l, ts.get? (posIndex d (p.2.next_head_pos d)) ≠ some Tile.Doodah) →
      resolveMoves d ts l = some (kept, gd) → gd = none := by
  intro l
  induction l with
  | nil =>
    intro kept gd _ h
    simp only [resolveMoves, Option.some.injEq, Prod.mk.injEq] at h
    exact h.2.symm
  | cons hd tl ih =>
    intro kept gd hno h
    obtain ⟨k, s0⟩ := hd
    simp only [resolveMoves] at h
    split at h
    · next heq => exact absurd heq (hno (k, s0) (List.mem_cons_self _ _))
    · split at h
      · next kept' gd' heq2 =>
          simp only [Option.some.injEq, Prod.mk.injEq] at h
          rw [← h.2]
          exact ih (fun p hp => hno p (List.mem_cons_of_mem _ hp)) heq2
      · cases h
    · exact ih (fun p hp => hno p (List.mem_cons_of_mem _ hp)) h
    · cases h

/-! ## Helper lemmas: the collision pass -/

theorem lookupKey_collisionPass_eq_none {moved : List (SnakeID × Snake)} {id : SnakeID}
    {s : Snake} (hnd : (moved.map Prod.fst).Nodup) (hmem : (id, s) ∈ moved)
    (hbad : moved.any
      (fun q => if id = q.1 then s.has_self_collided else s.has_collided q.2) = true) :
    lookupKey id (collisionPass moved) = none := by
  rw [lookupKey_eq_none_iff]
  intro p hp hk
  obtain ⟨p1, p2⟩ := p
  simp only at hk
  subst hk
  have hpm := List.mem_filter.mp hp
  have hps : p2 = s := mem_unique_of_nodup_keys hnd hpm.1 hmem
  subst hps
  have := hpm.2
  simp only [Bool.not_eq_true'] at this
  rw [hbad] at this
  cases this

/-! ## Helper lemmas: cleanup, repaint, doodah placement -/

theorem cleanTile_eq_doodah_iff (t : Tile) : cleanTile t = Tile.Doodah ↔ t = Tile.Doodah := by
  cases t <;> simp [cleanTile]

theorem cleanup_get?_doodah (m : Map) (j : Nat) :
    (m.cleanup_board).tiles.get? j = some Tile.Doodah ↔
      m.tiles.get? j = some Tile.Doodah := by
  show (m.tiles.map cleanTile).get? j = some Tile.Doodah ↔ _
  rw [List.get?_map]
  cases h : m.tiles.get? j with
  | none => simp
  | some t => simp [cleanTile_eq_doodah_iff]

theorem setTile_doodah {ts ts' : List Tile} {i : Nat} {t : Tile}
    (h : setTile ts i t = some ts') (ht : t ≠ Tile.Doodah) {j : Nat}
    (hj : ts'.get? j = some Tile.Doodah) : ts.get? j = some Tile.Doodah := by
  unfold setTile at h
  split at h
  · next hlt =>
      cases h
      by_cases hij : i = j
      · subst hij
        rw [List.get?_set_eq_of_lt t hlt] at hj
        exact absurd (Option.some.injEq _ _ ▸ hj) ht
      · rwa [List.get?_set_ne t ts hij] at hj
  · cases h

theorem placeBody_doodah {id : SnakeID} {d : Dimensions} :
    ∀ {body : List Position} {ts : List Tile} {n : Nat} {ts' : List Tile},
      placeBody id d ts n body = some ts' →
      ∀ {j}, ts'.get? j = some Tile.Doodah → ts.get? j = some Tile.Doodah := by
  intro body
  induction body with
  | nil =>
    intro ts n ts' h j hj
    simp only [placeBody, Option.some.injEq] at h
    rwa [h]
  | cons p ps ih =>
    intro ts n ts' h j hj
    simp only [placeBody] at h
    split at h
    · cases h
    · next ts1 heq =>
        exact setTile_doodah heq (by simp) (ih h hj)

theorem placeSnake_doodah {d : Dimensions} {ts : List Tile} {id : SnakeID} {s : Snake}
    {ts' : List Tile} (h : placeSnake d ts id s = some ts') {j : Nat}
    (hj : ts'.get? j = some Tile.Doodah) : ts.get? j = some Tile.Doodah := by
  simp only [placeSnake] at h
  split at h
  · cases h
  · next ts1 heq =>
      exact setTile_doodah heq (by simp) (placeBody_doodah h hj)

theorem placeAll_doodah {d : Dimensions} :
    ∀ {l : List (SnakeID × Snake)} {ts ts' : List Tile},
      placeAll d ts l = some ts' →
      ∀ {j}, ts'.get? j = some Tile.Doodah → ts.get? j = some Tile.Doodah := by
  intro l
  induction l with
  | nil =>
    intro ts ts' h j hj
    simp only [placeAll, Option.some.injEq] at h
    rwa [h]
  | cons hd tl ih =>
    intro ts ts' h j hj
    obtain ⟨id, s⟩ := hd
    simp only [placeAll] at h
    split at h
    · cases h
    · next ts1 heq =>
        exact placeSnake_doodah heq (ih h hj)

theorem placeDoodahTiles_atMostOne {ts : List Tile}
    (h : ∀ j, ts.get? j ≠ some Tile.Doodah) (r : Nat) :
    AtMostOneDoodah (placeDoodahTiles ts r) := by
  unfold placeDoodahTiles
  by_cases hb : (blankIndices ts).isEmpty
  · simp only [hb, if_true]
    intro i _ j _ hi _
    exact absurd hi (h i)
  · simp only [hb, if_false]
    intro i _ j _ hdi hdj
    have claim : ∀ x, (ts.set ((blankIndices ts).getD (r % (blankIndices ts).length) 0)
        Tile.Doodah).get? x = some Tile.Doodah →
        x = (blankIndices ts).getD (r % (blankIndices ts).length) 0 := by
      intro x hx
      by_contra hxb
      rw [List.get?_set_ne _ _ (fun he => hxb he.symm)] at hx
      exact absurd hx (h x)
    rw [claim i hdi, claim j hdj]

/-! ## Helper lemma: the shape of a successful step -/

theorem step_ok_shape {m : Map} {r : Nat} {m' : Map}
    (h : m.step r = some (Except.ok m')) :
    ∃ moved gd ts3,
      resolveMoves m.dims (m.cleanup_board).tiles m.snakes = some (moved, gd) ∧
      (collisionPass moved).isEmpty = false ∧
      placeAll m.dims (m.cleanup_board).tiles (collisionPass moved) = some ts3 ∧
      m'.snakes = collisionPass moved ∧
      m'.scores = (collisionPass moved).foldl
        (fun sc p => insertKey p.1 p.2.score sc) m.scores ∧
      ((gd = none ∧ m'.tiles = ts3) ∨
        (∃ coord t, gd = some coord ∧ ts3.get? (posIndex m.dims coord) = some t ∧
          m'.tiles = placeDoodahTiles
            (if t = Tile.Doodah then ts3.set (posIndex m.dims coord) Tile.Blank else ts3) r)) := by
  unfold Map.step at h
  split at h
  · cases h
  · next m2 gd heq =>
      unfold Map.move_snakes at heq
      split at heq
      · cases heq
      · next moved gd0 heq0 =>
          simp only [Option.some.injEq, Prod.mk.injEq] at heq
          obtain ⟨rfl, rfl⟩ := heq
          refine ⟨moved, gd0, ?_⟩
          split at h
          · cases h
          · next hne =>
              have hne' : (collisionPass moved).isEmpty = false :=
                Bool.not_eq_true _ ▸ hne
              split at h
              · cases h
              · next m3 heq3 =>
                  unfold Map.place_snakes at heq3
                  split at heq3
                  · cases heq3
                  · next ts3 heqp =>
                      simp only [Option.some.injEq] at heq3
                      subst heq3
                      refine ⟨ts3, heq0, hne', heqp, ?_⟩
                      split at h
                      · simp only [Option.some.injEq, Except.ok.injEq] at h
                        subst h
                        exact ⟨rfl, rfl, Or.inl ⟨rfl, rfl⟩⟩
                      · next coord =>
                          split at h
                          · cases h
                          · next t heqt =>
                              split at h <;>
                                (simp only [Option.some.injEq, Except.ok.injEq] at h;
                                 subst h)
                              · next htd =>
                                  refine ⟨rfl, rfl, Or.inr ⟨coord, t, rfl, heqt, ?_⟩⟩
                                  rw [if_pos htd]
                                  rfl
                              · next htd =>
                                  refine ⟨rfl, rfl, Or.inr ⟨coord, t, rfl, heqt, ?_⟩⟩
                                  rw [if_neg htd]
                                  rfl

theorem step_error_shape {m : Map} {r : Nat} {sc : List (SnakeID × Nat)}
    (h : m.step r = some (Except.error sc)) :
    sc = m.scores ∧ ∃ moved gd,
      resolveMoves m.dims (m.cleanup_board).tiles m.snakes = some (moved, gd) ∧
      collisionPass moved = [] := by
  unfold Map.step at h
  split at h
  · cases h
  · next m2 gd heq =>
      unfold Map.move_snakes at heq
      split at heq
      · cases heq
      · next moved gd0 heq0 =>
          simp only [Option.some.injEq, Prod.mk.injEq] at heq
          obtain ⟨rfl, rfl⟩ := heq
          split at h
          · next hemp =>
              simp only [Option.some.injEq, Except.error.injEq] at h
              refine ⟨h.symm, moved, gd0, heq0, ?_⟩
              simpa [List.isEmpty_iff] using hemp
          · split at h
            · cases h
            · split at h
              · cases h
              · next coord =>
                  split at h
                  · cases h
                  · split at h <;> cases h

theorem step_error_of_empty {m : Map} {r : Nat} {moved : List (SnakeID × Snake)}
    {gd : Option Position}
    (hres : resolveMoves m.dims (m.cleanup_board).tiles m.snakes = some (moved, gd))
    (hemp : collisionPass moved = []) :
    m.step r = some (Except.error m.scores) := by
  have hres' : resolveMoves m.cleanup_board.dims m.cleanup_board.tiles m.cleanup_board.snakes
      = some (moved, gd) := hres
  unfold Map.step Map.move_snakes
  rw [hres']
  simp only [hemp, List.isEmpty_nil, if_true]
  rfl

/-! ## C2: self-collision -/

/-- C2 counterexample: a snake of length 2 whose heading moves its head onto
its own tail tip (a body cell, with a target tile that is neither Wall nor
Doodah) is NOT removed by step: the tail tip is vacated by the same move, so
the post-move self-collision test fails and the snake survives. -/
theorem c2_counterexample_tail_tip_survives :
    c2s.body.length + 1 = 2 ∧
    c2s.next_head_pos c2map.dims ∈ c2s.body ∧
    (c2map.cleanup_board).tiles.get? (posIndex c2map.dims (c2s.next_head_pos c2map.dims))
      = some Tile.Blank ∧
    c2map.step 0 = some (Except.ok c2res) ∧
    c2res.is_alive 0 = true :=
  ⟨rfl, by decide, rfl, rfl, rfl⟩

/-- C2 (amended): a snake of length at least 2 whose heading would move its
head onto one of its own current body cells other than the tail tip (and whose
target cell, read after cleanup, is Blank, hence not a Wall or Doodah) is
removed by one call to step: it is absent from the resulting Map's live-snake
table.  A snake that targets only its tail tip survives, because the tail
vacates that cell in the same move (see the counterexample). -/
theorem c2_self_collision_removed (m : Map) (id : SnakeID) (s : Snake)
    (hmem : (id, s) ∈ m.snakes)
    (hnodup : (m.snakes.map Prod.fst).Nodup)
    (hbody : s.next_head_pos m.dims ∈ s.body.drop 1)
    (htile : (m.cleanup_board).tiles.get? (posIndex m.dims (s.next_head_pos m.dims))
      = some Tile.Blank) :
    ∀ r m', m.step r = some (Except.ok m') → m'.is_alive id = false := by
  intro r m' hstep
  obtain ⟨moved, gd, ts3, hres, -, -, hsn, -, -⟩ := step_ok_shape hstep
  have hmoved : (id, (s.step m.dims).1) ∈ moved := resolveMoves_mem_blank hres hmem htile
  have hsc : ((s.step m.dims).1).has_self_collided = true := by
    cases hb : s.body with
    | nil => rw [hb] at hbody; cases hbody
    | cons b0 rest =>
      rw [hb, List.drop_one, List.tail_cons] at hbody
      apply List.any_eq_true.mpr
      refine ⟨s.next_head_pos m.dims, ?_, by simp [Snake.step]⟩
      show s.next_head_pos m.dims ∈ (s.body ++ [s.head]).tail
      rw [hb, List.cons_append, List.tail_cons]
      exact List.mem_append_left _ hbody
  have hnd' : (moved.map Prod.fst).Nodup :=
    hnodup.sublist (resolveMoves_keys_sublist hres)
  have hbad : moved.any (fun q => if id = q.1
      then ((s.step m.dims).1).has_self_collided
      else ((s.step m.dims).1).has_collided q.2) = true := by
    apply List.any_eq_true.mpr
    exact ⟨(id, (s.step m.dims).1), hmoved, by simp [hsc]⟩
  have hnone := lookupKey_collisionPass_eq_none hnd' hmoved hbad
  rw [Map.is_alive, hsn, hnone]
  rfl

/-- Witness for C2 on the concrete 4 by 2 scenario. -/
theorem c2_self_collision_removed_witness :
    ((0, c2wX) ∈ c2wmap.snakes ∧
     (c2wmap.snakes.map Prod.fst).Nodup ∧
     c2wX.next_head_pos c2wmap.dims ∈ c2wX.body.drop 1 ∧
     (c2wmap.cleanup_board).tiles.get? (posIndex c2wmap.dims (c2wX.next_head_pos c2wmap.dims))
       = some Tile.Blank ∧
     c2wmap.step 0 = some (Except.ok c2wres)) ∧
    c2wres.is_alive 0 = false :=
  ⟨⟨by decide, by decide, by decide, rfl, rfl⟩,
    c2_self_collision_removed c2wmap 0 c2wX (by decide) (by decide) (by decide) rfl
      0 c2wres rfl⟩

/-! ## C3: mutual head collision -/

/-- C3: two distinct snakes that both survive move resolution (their targets,
read after cleanup, are Blank or Doodah) and whose next-head cells coincide
are both removed by one call to step; collision is judged on the post-move
positions of all still-candidate snakes simultaneously, so neither wins. -/
theorem c3_mutual_head_collision (m : Map) (i j : SnakeID) (si sj : Snake)
    (hne : i ≠ j)
    (hmi : (i, si) ∈ m.snakes) (hmj : (j, sj) ∈ m.snakes)
    (hnodup : (m.snakes.map Prod.fst).Nodup)
    (hti : (m.cleanup_board).tiles.get? (posIndex m.dims (si.next_head_pos m.dims))
        = some Tile.Blank ∨
      (m.cleanup_board).tiles.get? (posIndex m.dims (si.next_head_pos m.dims))
        = some Tile.Doodah)
    (htj : (m.cleanup_board).tiles.get? (posIndex m.dims (sj.next_head_pos m.dims))
        = some Tile.Blank ∨
      (m.cleanup_board).tiles.get? (posIndex m.dims (sj.next_head_pos m.dims))
        = some Tile.Doodah)
    (hheads : si.next_head_pos m.dims = sj.next_head_pos m.dims) :
    ∀ r m', m.step r = some (Except.ok m') →
      m'.is_alive i = false ∧ m'.is_alive j = false := by
  intro r m' hstep
  obtain ⟨moved, gd, ts3, hres, -, -, hsn, -, -⟩ := step_ok_shape hstep
  obtain ⟨si', hmi', hhi⟩ : ∃ s', (i, s') ∈ moved ∧ s'.head = si.next_head_pos m.dims := by
    rcases hti with h | h
    · exact ⟨(si.step m.dims).1, resolveMoves_mem_blank hres hmi h, rfl⟩
    · exact ⟨si.grow m.dims, resolveMoves_mem_doodah hres hmi h, rfl⟩
  obtain ⟨sj', hmj', hhj⟩ : ∃ s', (j, s') ∈ moved ∧ s'.head = sj.next_head_pos m.dims := by
    rcases htj with h | h
    · exact ⟨(sj.step m.dims).1, resolveMoves_mem_blank hres hmj h, rfl⟩
    · exact ⟨sj.grow m.dims, resolveMoves_mem_doodah hres hmj h, rfl⟩
  have hheq : si'.head = sj'.head := by rw [hhi, hhj, hheads]
  have hnd' : (moved.map Prod.fst).Nodup :=
    hnodup.sublist (resolveMoves_keys_sublist hres)
  have hbadi : moved.any (fun q => if i = q.1
      then si'.has_self_collided else si'.has_collided q.2) = true := by
    apply List.any_eq_true.mpr
    refine ⟨(j, sj'), hmj', ?_⟩
    simp [hne, Snake.has_collided, hheq]
  have hbadj : moved.any (fun q => if j = q.1
      then sj'.has_self_collided else sj'.has_collided q.2) = true := by
    apply List.any_eq_true.mpr
    refine ⟨(i, si'), hmi', ?_⟩
    simp [Ne.symm hne, Snake.has_collided, hheq]
  constructor
  · rw [Map.is_alive, hsn, lookupKey_collisionPass_eq_none hnd' hmi' hbadi]
    rfl
  · rw [Map.is_alive, hsn, lookupKey_collisionPass_eq_none hnd' hmj' hbadj]
    rfl

/-- Witness for C3 on the concrete 5 by 1 scenario. -/
theorem c3_mutual_head_collision_witness :
    ((0 : SnakeID) ≠ 1 ∧
     (0, c3A) ∈ c3map.snakes ∧ (1, c3B) ∈ c3map.snakes ∧
     (c3map.snakes.map Prod.fst).Nodup ∧
     c3A.next_head_pos c3map.dims = c3B.next_head_pos c3map.dims ∧
     c3map.step 0 = some (Except.ok c3res)) ∧
    (c3res.is_alive 0 = false ∧ c3res.is_alive 1 = false) :=
  ⟨⟨by decide, by decide, by decide, by decide, by decide, rfl⟩,
    c3_mutual_head_collision c3map 0 1 c3A c3B (by decide) (by decide) (by decide)
      (by decide) (Or.inl rfl) (Or.inl rfl) (by decide) 0 c3res rfl⟩

/-! ## C1: score of a snake that claims a doodah and dies -/

/-- C1 counterexample: snake 0's next-head cell holds a Doodah and snake 0 is
removed in the same call's collision pass, yet the resulting score table still
records its stale pre-step entry 0, not its pre-step body length plus one. -/
theorem c1_counterexample_score_not_grown :
    (c1map.cleanup_board).tiles.get? (posIndex c1map.dims (c1sA.next_head_pos c1map.dims))
      = some Tile.Doodah ∧
    resolveMoves c1map.dims (c1map.cleanup_board).tiles c1map.snakes
      = some (c1moved, some (1, 0)) ∧
    lookupKey 0 (collisionPass c1moved) = none ∧
    c1map.step 0 = some (Except.error [(0, 0), (1, 0)]) ∧
    lookupKey 0 [((0 : SnakeID), (0 : Nat)), (1, 0)] = some 0 ∧
    c1sA.body.length + 1 = 1 ∧
    some (0 : Nat) ≠ some (1 : Nat) :=
  ⟨rfl, rfl, rfl, rfl, rfl, rfl, by decide⟩

/-- C1 (amended): when a snake's next-head cell holds a Doodah and that snake
is removed in the same call's collision pass, its growth is applied to its
body before removal (it appears in the post-move table with body length plus
one), but the score table of the result of step (whether Ok or Err) is NOT
updated to the grown length: update_scores refreshes living snakes only, so
the dead snake's entry keeps the value it had before the step. -/
theorem c1_claimed_doodah_dead_score (m : Map) (id : SnakeID) (s : Snake)
    (moved : List (SnakeID × Snake)) (gd : Option Position)
    (hmem : (id, s) ∈ m.snakes)
    (hdoodah : (m.cleanup_board).tiles.get? (posIndex m.dims (s.next_head_pos m.dims))
      = some Tile.Doodah)
    (hres : resolveMoves m.dims (m.cleanup_board).tiles m.snakes = some (moved, gd))
    (hdead : lookupKey id (collisionPass moved) = none) :
    ((id, s.grow m.dims) ∈ moved ∧ (s.grow m.dims).body.length = s.body.length + 1) ∧
    (∀ r res, m.step r = some res →
      lookupKey id (resultScores res) = lookupKey id m.scores) := by
  constructor
  · exact ⟨resolveMoves_mem_doodah hres hmem hdoodah, by simp [Snake.grow]⟩
  · intro r res hstep
    cases res with
    | error sc =>
      have hsc := (step_error_shape hstep).1
      rw [resultScores, hsc]
    | ok m' =>
      obtain ⟨moved', gd', ts3, hres', -, -, -, hscores, -⟩ := step_ok_shape hstep
      have hmv : moved' = moved := by
        rw [hres] at hres'
        injection hres' with h1
        exact (congrArg Prod.fst h1.symm : _)
      subst hmv
      rw [resultScores, hscores]
      exact lookupKey_foldl_insertKey m.scores
        (fun p hp => (lookupKey_eq_none_iff _ _).mp hdead p hp)

/-- Witness for C1 on the concrete 4 by 1 double-claim scenario. -/
theorem c1_claimed_doodah_dead_score_witness :
    ((0, c1sA) ∈ c1map.snakes ∧
     (c1map.cleanup_board).tiles.get? (posIndex c1map.dims (c1sA.next_head_pos c1map.dims))
       = some Tile.Doodah ∧
     resolveMoves c1map.dims (c1map.cleanup_board).tiles c1map.snakes
       = some (c1moved, some (1, 0)) ∧
     lookupKey 0 (collisionPass c1moved) = none ∧
     c1map.step 0 = some (Except.error [(0, 0), (1, 0)])) ∧
    lookupKey 0 (resultScores (Except.error [(0, 0), (1, 0)])) = lookupKey 0 c1map.scores :=
  ⟨⟨by decide, rfl, rfl, rfl, rfl⟩,
    (c1_claimed_doodah_dead_score c1map 0 c1sA c1moved (some (1, 0))
      (by decide) rfl rfl rfl).2 0 (Except.error [(0, 0), (1, 0)]) rfl⟩

/-! ## C4: step fails exactly when no snakes remain -/

/-- C4: step returns Err exactly when no snakes remain after move resolution
and the collision pass, and the Err value is the score table as it stood
before the step (each dead snake's entry frozen at its recorded value); in
particular, a Map with exactly one snake whose next-head cell is a Wall yields
Err with a score table containing that snake's final length. -/
theorem c4_step_err_characterization (m : Map) (r : Nat) (m2 : Map) (gd : Option Position)
    (hmv : (m.cleanup_board).move_snakes = some (m2, gd)) :
    (∀ sc, m.step r = some (Except.error sc) ↔ (m2.snakes = [] ∧ sc = m.scores)) ∧
    (∀ id s, m.snakes = [(id, s)] →
      (m.cleanup_board).tiles.get? (posIndex m.dims (s.next_head_pos m.dims))
        = some Tile.Wall →
      lookupKey id m.scores = some s.score →
      m.step r = some (Except.error m.scores) ∧ lookupKey id m.scores = some s.score) := by
  have helim : ∃ moved,
      resolveMoves m.dims (m.cleanup_board).tiles m.snakes = some (moved, gd) ∧
      m2.snakes = collisionPass moved := by
    unfold Map.move_snakes at hmv
    split at hmv
    · cases hmv
    · next moved gd0 heq0 =>
        simp only [Option.some.injEq, Prod.mk.injEq] at hmv
        obtain ⟨rfl, rfl⟩ := hmv
        exact ⟨moved, heq0, rfl⟩
  obtain ⟨moved, hres, hsn⟩ := helim
  constructor
  · intro sc
    constructor
    · intro hstep
      obtain ⟨hsc, moved', gd', hres', hemp⟩ := step_error_shape hstep
      rw [hres] at hres'
      injection hres' with h1
      have : moved' = moved := (congrArg Prod.fst h1.symm : _)
      subst this
      exact ⟨hsn.trans hemp, hsc⟩
    · rintro ⟨hemp, rfl⟩
      exact step_error_of_empty hres (hsn ▸ hemp)
  · intro id s hone htw hsco
    refine ⟨?_, hsco⟩
    have hres1 : resolveMoves m.dims (m.cleanup_board).tiles m.snakes = some ([], none) := by
      rw [show m.snakes = [(id, s)] from hone]
      simp only [resolveMoves]
      rw [htw]
    exact step_error_of_empty hres1 rfl

/-- Witness for C4 on the concrete one-snake-into-a-wall scenario. -/
theorem c4_step_err_characterization_witness :
    ((c4map.cleanup_board).move_snakes = some (c4m2, none) ∧
     c4map.snakes = [(0, c4s)] ∧
     lookupKey 0 c4map.scores = some c4s.score) ∧
    (c4map.step 0 = some (Except.error c4map.scores) ∧
     lookupKey 0 c4map.scores = some c4s.score) :=
  ⟨⟨rfl, rfl, rfl⟩,
    (c4_step_err_characterization c4map 0 c4m2 none rfl).2 0 c4s rfl rfl rfl⟩

/-! ## C5: at most one doodah is preserved -/

/-- C5: a successful step preserves the invariant that at most one Doodah
tile exists on the grid: the claimed doodah's old cell is cleared only if it
still reads Doodah after repaint, and the respawn writes exactly one Doodah
onto a blank cell (none when no blank exists). -/
theorem c5_at_most_one_doodah (m : Map) (h1 : AtMostOneDoodah m.tiles) :
    ∀ r m', m.step r = some (Except.ok m') → AtMostOneDoodah m'.tiles := by
  intro r m' hstep
  obtain ⟨moved, gd, ts3, hres, -, hplace, -, -, htiles⟩ := step_ok_shape hstep
  have hclean_mono : ∀ j, (m.cleanup_board).tiles.get? j = some Tile.Doodah →
      m.tiles.get? j = some Tile.Doodah := fun j hj => (cleanup_get?_doodah m j).mp hj
  have hts3_mono : ∀ j, ts3.get? j = some Tile.Doodah →
      (m.cleanup_board).tiles.get? j = some Tile.Doodah := fun j hj => placeAll_doodah hplace hj
  rcases htiles with ⟨-, htl⟩ | ⟨coord, t, hgd, hget, htl⟩
  · rw [htl]
    intro i _ j _ hdi hdj
    have h1i := hclean_mono i (hts3_mono i hdi)
    have h1j := hclean_mono j (hts3_mono j hdj)
    obtain ⟨hlti, -⟩ := List.get?_eq_some.mp h1i
    obtain ⟨hltj, -⟩ := List.get?_eq_some.mp h1j
    exact h1 i hlti j hltj h1i h1j
  · subst hgd
    have hcd : (m.cleanup_board).tiles.get? (posIndex m.dims coord) = some Tile.Doodah :=
      resolveMoves_gd_doodah hres
    have honly : ∀ x, ts3.get? x = some Tile.Doodah → x = posIndex m.dims coord := by
      intro x hx
      have hox := hclean_mono x (hts3_mono x hx)
      have hoi := hclean_mono _ hcd
      obtain ⟨hltx, -⟩ := List.get?_eq_some.mp hox
      obtain ⟨hlti, -⟩ := List.get?_eq_some.mp hoi
      exact h1 x hltx _ hlti hox hoi
    have hnone : ∀ x, (if t = Tile.Doodah
        then ts3.set (posIndex m.dims coord) Tile.Blank else ts3).get? x
        ≠ some Tile.Doodah := by
      intro x
      by_cases htd : t = Tile.Doodah
      · rw [if_pos htd]
        by_cases hxi : x = posIndex m.dims coord
        · subst hxi
          obtain ⟨hlt, -⟩ := List.get?_eq_some.mp hget
          rw [List.get?_set_eq_of_lt _ hlt]
          simp
        · rw [List.get?_set_ne _ _ (fun he => hxi he.symm)]
          intro hx
          exact hxi (honly x hx)
      · rw [if_neg htd]
        intro hx
        rw [honly x hx] at hx
        rw [hget] at hx
        injection hx with ht2
        exact htd ht2
    rw [htl]
    exact placeDoodahTiles_atMostOne hnone r

/-- Witness for C5 on the concrete doodah-eating scenario. -/
theorem c5_at_most_one_doodah_witness :
    (AtMostOneDoodah c5map.tiles ∧ c5map.step 0 = some (Except.ok c5res)) ∧
    AtMostOneDoodah c5res.tiles :=
  ⟨⟨by decide, rfl⟩, c5_at_most_one_doodah c5map (by decide) 0 c5res rfl⟩

/-! ## C7: determinism away from doodahs -/

/-- C7: for a Map in which no snake's next-head cell holds a Doodah, step is
deterministic: its result does not depend on the random input, which is
consumed only by the doodah respawn. -/
theorem c7_step_deterministic (m : Map)
    (hnd : ∀ p ∈ m.snakes,
      m.tiles.get? (posIndex m.dims (p.2.next_head_pos m.dims)) ≠ some Tile.Doodah) :
    ∀ r1 r2 : Nat, m.step r1 = m.step r2 := by
  intro r1 r2
  have hnd' : ∀ p ∈ m.snakes,
      (m.cleanup_board).tiles.get? (posIndex m.dims (p.2.next_head_pos m.dims))
        ≠ some Tile.Doodah := by
    intro p hp hc
    exact hnd p hp ((cleanup_get?_doodah m _).mp hc)
  unfold Map.step
  cases hmv : (m.cleanup_board).move_snakes with
  | none => rfl
  | some pr =>
    obtain ⟨m2, gd⟩ := pr
    have hgd : gd = none := by
      unfold Map.move_snakes at hmv
      split at hmv
      · cases hmv
      · next moved gd0 heq0 =>
          simp only [Option.some.injEq, Prod.mk.injEq] at hmv
          rw [← hmv.2]
          exact resolveMoves_gd_none hnd' heq0
    subst hgd
    rfl

/-- Witness for C7 on a concrete doodah-free map. -/
theorem c7_step_deterministic_witness :
    (∀ p ∈ c7map.snakes,
      c7map.tiles.get? (posIndex c7map.dims (p.2.next_head_pos c7map.dims))
        ≠ some Tile.Doodah) ∧
    c7map.step 0 = c7map.step 1 :=
  ⟨by decide, c7_step_deterministic c7map (by decide) 0 1⟩

/-! ## C8: subscribe -/

/-- C8: subscribe(address, room) succeeds exactly when the address is in the
registry and the room is Waiting; on success the waiter moves from the
registry into the room's roster (the room's lifecycle state untouched); on
either failure it returns a recoverable error and leaves the registry contents
(pointwise) and the room entirely unchanged, the waiter still registered. -/
theorem c8_subscribe_spec (wl : WaitingList) (addr : SocketAddr) (room : Room) :
    ((WaitingList.subscribe wl addr room).1 = Except.ok () ↔
      ((∃ w, lookupKey addr wl.waiting = some w) ∧ room.state = RoomState.Waiting)) ∧
    ((WaitingList.subscribe wl addr room).1 = Except.ok () →
      lookupKey addr (WaitingList.subscribe wl addr room).2.1.waiting = none ∧
      lookupKey addr (WaitingList.subscribe wl addr room).2.2.players
        = lookupKey addr wl.waiting ∧
      (WaitingList.subscribe wl addr room).2.2.state = room.state) ∧
    (∀ e, (WaitingList.subscribe wl addr room).1 = Except.error e →
      (∀ a, lookupKey a (WaitingList.subscribe wl addr room).2.1.waiting
        = lookupKey a wl.waiting) ∧
      (WaitingList.subscribe wl addr room).2.2 = room) := by
  cases hlk : lookupKey addr wl.waiting with
  | none =>
    have hsub : WaitingList.subscribe wl addr room
        = (Except.error "address not in wait queue", wl, room) := by
      unfold WaitingList.subscribe
      rw [hlk]
    rw [hsub]
    refine ⟨?_, ?_, ?_⟩
    · constructor
      · intro h
        simp at h
      · rintro ⟨⟨w, hw⟩, -⟩
        exact Option.noConfusion hw
    · intro h
      simp at h
    · intro e _
      exact ⟨fun a => rfl, rfl⟩
  | some w =>
    cases hst : room.state with
    | Waiting =>
      have hsub : WaitingList.subscribe wl addr room
          = (Except.ok (), ⟨eraseKey addr wl.waiting⟩,
             { room with players := insertKey addr w room.players }) := by
        unfold WaitingList.subscribe
        rw [hlk, hst]
      rw [hsub]
      refine ⟨?_, ?_, ?_⟩
      · exact ⟨fun _ => ⟨⟨w, rfl⟩, rfl⟩, fun _ => rfl⟩
      · intro _
        exact ⟨lookupKey_eraseKey_self _ _, lookupKey_insertKey_self _ _ _, hst⟩
      · intro e h
        simp at h
    | Playing mm aa bb =>
      have hsub : WaitingList.subscribe wl addr room
          = (Except.error "provided room is already in progress",
             ⟨insertKey addr w (eraseKey addr wl.waiting)⟩, room) := by
        unfold WaitingList.subscribe
        rw [hlk, hst]
      rw [hsub]
      refine ⟨?_, ?_, ?_⟩
      · constructor
        · intro h
          simp at h
        · rintro ⟨-, hw⟩
          exact RoomState.noConfusion hw
      · intro h
        simp at h
      · intro e _
        refine ⟨?_, rfl⟩
        intro a
        by_cases ha : a = addr
        · subst ha
          rw [lookupKey_insertKey_self, hlk]
        · rw [lookupKey_insertKey_ne ha, lookupKey_eraseKey_ne ha]
    | Finished sc =>
      have hsub : WaitingList.subscribe wl addr room
          = (Except.error "provided room is already in progress",
             ⟨insertKey addr w (eraseKey addr wl.waiting)⟩, room) := by
        unfold WaitingList.subscribe
        rw [hlk, hst]
      rw [hsub]
      refine ⟨?_, ?_, ?_⟩
      · constructor
        · intro h
          simp at h
        · rintro ⟨-, hw⟩
          exact RoomState.noConfusion hw
      · intro h
        simp at h
      · intro e _
        refine ⟨?_, rfl⟩
        intro a
        by_cases ha : a = addr
        · subst ha
          rw [lookupKey_insertKey_self, hlk]
        · rw [lookupKey_insertKey_ne ha, lookupKey_eraseKey_ne ha]

/-- Witness for C8 on a concrete registry and Waiting room. -/
theorem c8_subscribe_spec_witness :
    ((WaitingList.subscribe c8wl 7 c8room).1 = Except.ok () →
      lookupKey 7 (WaitingList.subscribe c8wl 7 c8room).2.1.waiting = none ∧
      lookupKey 7 (WaitingList.subscribe c8wl 7 c8room).2.2.players
        = lookupKey 7 c8wl.waiting ∧
      (WaitingList.subscribe c8wl 7 c8room).2.2.state = c8room.state) :=
  (c8_subscribe_spec c8wl 7 c8room).2.1

/-! ## C9: reset on a non-Playing room -/

/-- C9 counterexample: resetting a room in the Finished state is not a no-op.
It returns success, but the lifecycle state changes from Finished (discarding
the frozen score table) back to Waiting. -/
theorem c9_counterexample_reset_finished_not_noop :
    c9room.state.isPlaying = false ∧
    (c9room.reset).1 = Except.ok () ∧
    (c9room.reset).2.state ≠ c9room.state ∧
    (c9room.reset).2.state = RoomState.Waiting := by
  refine ⟨rfl, rfl, by decide, rfl⟩

/-- C9 amended: for every room not in the Playing state, reset returns
success, but instead of being a no-op it clears the roster and returns the
room to the Waiting state, discarding any frozen score table; the other
room fields are unchanged and no cancellation signal is involved. -/
theorem c9_reset_non_playing (room : Room) (h : room.state.isPlaying = false) :
    room.reset = (Except.ok (), { room with players := [], state := RoomState.Waiting }) := by
  unfold Room.reset
  cases hs : room.state with
  | Waiting => simp
  | Playing mm aa bb => rw [hs] at h; simp [RoomState.isPlaying] at h
  | Finished sc => simp

/-- Witness for C9 at a concrete Finished room. -/
theorem c9_reset_non_playing_witness :
    c9room.state.isPlaying = false ∧
    c9room.reset = (Except.ok (), { c9room with players := [], state := RoomState.Waiting }) :=
  ⟨rfl, c9_reset_non_playing c9room rfl⟩

end SnakeArena
